import Mathlib

/-!
Verification of the gin-pprof profiling coordinator against its
natural-language specification.  The Go sources under `pkg/core`,
`pkg/adapters/storage` and the profiler session implementations are
shallowly embedded as executable Lean definitions; the theorems below
settle the spec's claims about admission sampling, expiry, concurrency
bounds, task-table updates, session stop idempotence, filename synthesis
and storage deletion.
-/

namespace GinPprof

/-- An instant in time, modelled as nanoseconds since the Unix epoch
(Go `time.Time`).  This repository only compares instants and formats
them, so a natural number is a faithful model. -/
abbrev Instant := Nat

/-- Model of Go `a.After(b)`, which is the strict comparison `a > b`
(`time.Time.After` returns true only when `a` is strictly later). -/
def timeAfter (a b : Instant) : Bool := decide (b < a)

/-- Model of `core.ProfilingTask` (src/pkg/core/types.go).  `Duration` and
`SampleRate` are Go `int`, modelled as `Int`; `ExpiresAt` is an instant. -/
structure ProfilingTask where
  path : String
  methods : List String
  expiresAt : Instant
  duration : Int
  sampleRate : Int
  profileType : String
deriving Repr, DecidableEq, Inhabited

/-- Model of `core.ProfilingStats` (src/pkg/core/types.go); the counters
are Go `int64`, modelled as `Int` (they are incremented and decremented
by one, far from the 2^63 wrap, so plain `Int` is faithful here). -/
structure ProfilingStats where
  totalRequests : Int
  profiledCount : Int
  failedCount : Int
  activeProfiles : Int
  lastUpdate : Instant
deriving Repr, DecidableEq, Inhabited

/-- Model of `core.ProfilingResult` (src/pkg/core/types.go). -/
structure ProfilingResult where
  path : String
  startTime : Instant
  duration : Int
  filename : String
  fileSize : Int
  profileType : String
  success : Bool
  error : String
deriving Repr, DecidableEq, Inhabited

/-- The fields of `core.Options` (src/unnamed/part_004) read by the
coordinator logic under verification.  `MaxConcurrent` is the capacity of
the limiter channel, hence non-negative. -/
structure Options where
  maxConcurrent : Nat
  enabled : Bool
deriving Repr, DecidableEq, Inhabited

/-! ### Method matching (src/unnamed/part_005, `task_methods` section) -/

/-- Model of Go `strings.EqualFold` restricted to its ASCII behaviour
(the HTTP method strings this library compares are ASCII): two strings
are equal up to case.  The comparison is phrased over the character
lists so that it evaluates inside the kernel. -/
def eqFold (a b : String) : Bool :=
  a.data.map Char.toLower == b.data.map Char.toLower

/-- `CommonMethods`: the methods the `"*"` wildcard expands to. -/
def CommonMethods : List String := ["GET", "POST", "PUT", "DELETE"]

/-- The `contains` helper from the source: case-insensitive membership of
`item` in `slice` (each element is compared with `strings.EqualFold`). -/
def contains (slice : List String) (item : String) : Bool :=
  slice.any (fun s => eqFold s item)

/-- `ProfilingTask.ShouldMatchMethod` from the source: an empty method
set is compared against the literal `"GET"` with `==`; a set containing
`"*"` matches the common methods case-insensitively; otherwise the
request method must be a case-insensitive member of the set. -/
def ShouldMatchMethod (task : ProfilingTask) (requestMethod : String) : Bool :=
  if task.methods.length == 0 then requestMethod == "GET"
  else if contains task.methods "*" then contains CommonMethods requestMethod
  else contains task.methods requestMethod

/-- Method matching as the specification words it ("method matching is
case-insensitive; empty set matches the method GET"): identical to the
source except that the empty-set branch also compares case-insensitively. -/
def specMethodMatch (task : ProfilingTask) (requestMethod : String) : Bool :=
  if task.methods.length == 0 then eqFold requestMethod "GET"
  else if contains task.methods "*" then contains CommonMethods requestMethod
  else contains task.methods requestMethod

/-- A task whose declaration leaves `methods` empty. -/
def emptyMethodsTask : ProfilingTask :=
  { path := "/a/:id", methods := [], expiresAt := 1000, duration := 30,
    sampleRate := 1, profileType := "cpu" }

/-- Commutativity of case-insensitive string comparison. -/
theorem eqFold_comm (a b : String) : eqFold a b = eqFold b a := by
  unfold eqFold
  cases h : b.data.map Char.toLower == a.data.map Char.toLower
  · simp only [beq_eq_false_iff_ne] at h ⊢
    exact fun hh => h hh.symm
  · simp [eq_of_beq h]

/-- C6 counterexample: the claim says method matching is case-insensitive
and that an empty method set matches the method GET; on the code, an
empty method set is compared to the literal `"GET"` case-sensitively, so
the request method `"get"` is rejected although the spec-worded predicate
accepts it. -/
theorem C6_counterexample :
    ShouldMatchMethod emptyMethodsTask "get" = false ∧
    specMethodMatch emptyMethodsTask "get" = true := by
  constructor <;> decide

/-- C6 (amended): method matching is case-insensitive except for the
empty method set, which matches only the exact string `"GET"`; a set
containing `"*"` (recognised case-insensitively) matches exactly GET,
POST, PUT and DELETE up to case; otherwise a method matches iff it is a
case-insensitive member of the set.  Case-insensitivity in the non-empty
branches: folding-equal request methods are matched identically. -/
theorem C6_method_matching (task : ProfilingTask) (m m2 : String) :
    (task.methods = [] → ShouldMatchMethod task m = (m == "GET"))
    ∧ (task.methods ≠ [] → contains task.methods "*" = true →
        ShouldMatchMethod task m =
          (eqFold m "GET" || eqFold m "POST" || eqFold m "PUT" || eqFold m "DELETE"))
    ∧ (task.methods ≠ [] → contains task.methods "*" = false →
        ShouldMatchMethod task m = contains task.methods m)
    ∧ (task.methods ≠ [] → eqFold m m2 = true →
        ShouldMatchMethod task m = ShouldMatchMethod task m2) := by
  refine ⟨?_, ?_, ?_, ?_⟩
  · intro h
    simp [ShouldMatchMethod, h]
  · intro h hstar
    have hlen : (task.methods.length == 0) = false := by
      simpa [List.length_eq_zero] using h
    simp only [ShouldMatchMethod, hlen, Bool.false_eq_true, if_false, hstar, if_true]
    simp only [contains, CommonMethods, List.any_cons, List.any_nil, Bool.or_false]
    rw [eqFold_comm "GET" m, eqFold_comm "POST" m, eqFold_comm "PUT" m,
      eqFold_comm "DELETE" m]
    simp [Bool.or_assoc]
  · intro h hstar
    have hlen : (task.methods.length == 0) = false := by
      simpa [List.length_eq_zero] using h
    simp [ShouldMatchMethod, hlen, hstar]
  · intro h hfold
    have hlen : (task.methods.length == 0) = false := by
      simpa [List.length_eq_zero] using h
    have hlow : m.data.map Char.toLower = m2.data.map Char.toLower :=
      eq_of_beq (by simpa [eqFold] using hfold)
    simp only [ShouldMatchMethod, hlen, Bool.false_eq_true, if_false]
    have hc : ∀ (l : List String), contains l m = contains l m2 := by
      intro l
      simp only [contains, eqFold, hlow]
    by_cases hstar : contains task.methods "*" = true
    · simp [hstar, hc]
    · simp only [Bool.not_eq_true] at hstar
      simp [hstar, hc]

/-- C6 witness: concrete instantiation of the amended method-matching
theorem at a task with methods `["post", "*"]` and request `"PUT"`. -/
theorem C6_method_matching_witness :
    ShouldMatchMethod { emptyMethodsTask with methods := ["post", "*"] } "PUT" =
      (eqFold "PUT" "GET" || eqFold "PUT" "POST" || eqFold "PUT" "PUT" ||
        eqFold "PUT" "DELETE") :=
  (C6_method_matching { emptyMethodsTask with methods := ["post", "*"] } "PUT"
    "put").2.1 (by decide) (by decide)

/-! ### Filename synthesis (src/pkg/core/manager.go, `generateFilename`
and `sanitizePath`) -/

/-- The `replacements` table of `sanitizePath`: a Go `map[rune]rune`,
modelled as an association list of characters. -/
def replacements : List (Char × Char) :=
  [('/', '_'), (':', '_'), ('*', '_'), ('?', '_'),
   ('<', '_'), ('>', '_'), ('|', '_'), ('"', '_'), ('\\', '_')]

/-- `sanitizePath` from the coordinator: every rune found in the
`replacements` table is replaced, all other runes are appended as-is. -/
def sanitizePath (path : String) : String :=
  String.mk (path.data.map (fun r =>
    match replacements.find? (fun e => e.1 == r) with
    | some replacement => replacement.2
    | none => r))

/-- Path sanitization as the specification words it: each occurrence of
the characters `/ : * ? < > | " \` is replaced by an underscore and all
other characters are unchanged. -/
def specSanitizedPath (path : String) : String :=
  String.mk (path.data.map (fun c =>
    if c ∈ ['/', ':', '*', '?', '<', '>', '|', '"', '\\'] then '_' else c))

/-- Civil (proleptic Gregorian) date for a number of days since
1970-01-01, by the standard era decomposition; returns (year, month,
day). -/
def civilFromDays (z0 : Int) : Int × Int × Int :=
  let z := z0 + 719468
  let era := z.fdiv 146097
  let doe := z - era * 146097
  let yoe := (doe - doe / 1460 + doe / 36524 - doe / 146096) / 365
  let y := yoe + era * 400
  let doy := doe - (365 * yoe + yoe / 4 - yoe / 100)
  let mp := (5 * doy + 2) / 153
  let d := doy - (153 * mp + 2) / 5 + 1
  let m := mp + (if mp < 10 then 3 else -9)
  (y + (if m ≤ 2 then 1 else 0), m, d)

/-- Zero-padding to two digits. -/
def pad2 (n : Nat) : String := if n < 10 then "0" ++ toString n else toString n

/-- Zero-padding to four digits. -/
def pad4 (n : Nat) : String :=
  if n < 10 then "000" ++ toString n
  else if n < 100 then "00" ++ toString n
  else if n < 1000 then "0" ++ toString n
  else toString n

/-- Go `time.Time.Format "20060102_150405"` of the instant `t`, in a
zone whose offset from UTC is `tzOffsetSeconds` (the source formats in
the process-local zone; the offset is made explicit here). -/
def formatTimestamp (tzOffsetSeconds : Int) (t : Instant) : String :=
  let secs : Int := (t : Int) / 1000000000 + tzOffsetSeconds
  let days := secs.fdiv 86400
  let sod := (secs - days * 86400).toNat
  let ymd := civilFromDays days
  pad4 ymd.1.toNat ++ pad2 ymd.2.1.toNat ++ pad2 ymd.2.2.toNat ++ "_" ++
    pad2 (sod / 3600) ++ pad2 (sod % 3600 / 60) ++ pad2 (sod % 60)

/-- `Manager.generateFilename`: the `fmt.Sprintf` composition
`"%s/profile_%s_%s_%s_%d.pprof"` of the profile type, sanitized path,
method, formatted timestamp and `UnixNano() % 1000000`.  Both calls to
`time.Now()` in the source observe the single instant `t`. -/
def generateFilename (tz : Int) (t : Instant) (path method profileType : String) :
    String :=
  let sanitized := sanitizePath path
  let timestamp := formatTimestamp tz t
  let nanos := t % 1000000
  profileType ++ "/profile_" ++ sanitized ++ "_" ++ method ++ "_" ++ timestamp ++
    "_" ++ toString nanos ++ ".pprof"

/-- The artifact filename exactly as the specification describes it:
the template with the spec's sanitized path. -/
def specFilename (tz : Int) (t : Instant) (path method profileType : String) :
    String :=
  profileType ++ "/profile_" ++ specSanitizedPath path ++ "_" ++ method ++ "_" ++
    formatTimestamp tz t ++ "_" ++ toString (t % 1000000) ++ ".pprof"

/-- Per-character agreement between the source's replacement-table lookup
and the spec's replacement set. -/
theorem sanitize_char (c : Char) :
    (match replacements.find? (fun e => e.1 == c) with
     | some replacement => replacement.2
     | none => c) =
    if c ∈ ['/', ':', '*', '?', '<', '>', '|', '"', '\\'] then '_' else c := by
  by_cases h1 : ('/' : Char) = c
  · subst h1; decide
  by_cases h2 : (':' : Char) = c
  · subst h2; decide
  by_cases h3 : ('*' : Char) = c
  · subst h3; decide
  by_cases h4 : ('?' : Char) = c
  · subst h4; decide
  by_cases h5 : ('<' : Char) = c
  · subst h5; decide
  by_cases h6 : ('>' : Char) = c
  · subst h6; decide
  by_cases h7 : ('|' : Char) = c
  · subst h7; decide
  by_cases h8 : ('"' : Char) = c
  · subst h8; decide
  by_cases h9 : ('\\' : Char) = c
  · subst h9; decide
  have hfind : replacements.find? (fun e => e.1 == c) = none := by
    simp only [replacements, List.find?]
    rw [beq_eq_false_iff_ne.mpr h1, beq_eq_false_iff_ne.mpr h2,
      beq_eq_false_iff_ne.mpr h3, beq_eq_false_iff_ne.mpr h4,
      beq_eq_false_iff_ne.mpr h5, beq_eq_false_iff_ne.mpr h6,
      beq_eq_false_iff_ne.mpr h7, beq_eq_false_iff_ne.mpr h8,
      beq_eq_false_iff_ne.mpr h9]
  rw [hfind]
  rw [if_neg]
  intro hmem
  simp only [List.mem_cons, List.not_mem_nil, or_false] at hmem
  rcases hmem with h | h | h | h | h | h | h | h | h
  · exact h1 h.symm
  · exact h2 h.symm
  · exact h3 h.symm
  · exact h4 h.symm
  · exact h5 h.symm
  · exact h6 h.symm
  · exact h7 h.symm
  · exact h8 h.symm
  · exact h9 h.symm

/-- The source's sanitization equals the spec's character replacement. -/
theorem sanitizePath_eq_spec (path : String) :
    sanitizePath path = specSanitizedPath path := by
  unfold sanitizePath specSanitizedPath
  have hfun :
      (fun r => match replacements.find? (fun e => e.1 == r) with
        | some replacement => replacement.2
        | none => r) =
      (fun c => if c ∈ ['/', ':', '*', '?', '<', '>', '|', '"', '\\']
        then '_' else c) :=
    funext sanitize_char
  rw [hfun]

/-- C7: the synthesized artifact filename equals
`<profile_type>/profile_<sanitized_path>_<METHOD>_<YYYYMMDD_HHMMSS>_<nanos mod 10^6>.pprof`
with the spec's sanitization of the path, and the synthesis is
deterministic: equal inputs at the same instant give equal filenames. -/
theorem C7_filename (tz : Int) (t : Instant) (path method profileType : String) :
    generateFilename tz t path method profileType =
      specFilename tz t path method profileType
    ∧ ∀ tz2 t2 p2 m2 ty2, tz = tz2 → t = t2 → path = p2 → method = m2 →
        profileType = ty2 →
        generateFilename tz t path method profileType =
          generateFilename tz2 t2 p2 m2 ty2 := by
  constructor
  · unfold generateFilename specFilename
    rw [sanitizePath_eq_spec]
  · intro tz2 t2 p2 m2 ty2 h1 h2 h3 h4 h5
    rw [h1, h2, h3, h4, h5]

/-! ### Storage backends (src/pkg/adapters/storage/memory.go and the file
backend in src/unnamed/part_000).  A backend's contents are a map from
name to entry; the first component of each result is the returned error. -/

/-- An entry held by a storage backend: artifact bytes and modification
instant. -/
structure MemFile where
  data : List Nat
  modTime : Instant
deriving Repr, DecidableEq, Inhabited

/-- `MemoryStorage.Delete`: a missing entry is silently considered
deleted (`return nil`), otherwise the entry is removed from the map. -/
def memoryDelete (files : List (String × MemFile)) (filename : String) :
    Option String × List (String × MemFile) :=
  if files.any (fun e => e.1 == filename) then
    (none, files.filter (fun e => !(e.1 == filename)))
  else
    (none, files)

/-- Go `os.Remove`: removing an existing entry succeeds; removing a
missing path fails with a path error (ENOENT). -/
def osRemove (fs : List (String × MemFile)) (path : String) :
    Option String × List (String × MemFile) :=
  if fs.any (fun e => e.1 == path) then
    (none, fs.filter (fun e => !(e.1 == path)))
  else
    (some ("remove " ++ path ++ ": no such file or directory"), fs)

/-- Go `filepath.Join` for a base directory and a relative filename that
contains no `.`/`..` segments (the only shape this repository passes). -/
def filepathJoin (a b : String) : String := a ++ "/" ++ b

/-- `FileStorage.Delete`: joins the base directory with the filename and
returns the `os.Remove` error unconditionally — there is no not-exist
check before propagating the error. -/
def fileStorageDelete (baseDir : String) (fs : List (String × MemFile))
    (filename : String) : Option String × List (String × MemFile) :=
  osRemove fs (filepathJoin baseDir filename)

/-- C9 counterexample: deleting a filename that is absent from the file
backend returns an error, contradicting the claim that delete of a
non-existent entry returns no error for every backend. -/
theorem C9_counterexample :
    (fileStorageDelete "./profiles" [] "cpu/p.pprof").1 ≠ none := by
  decide

/-- C9 (amended): the in-memory backend never returns an error from
delete — in particular deleting a non-existent entry is not an error —
while the file backend propagates the operating system's error when the
file does not exist. -/
theorem C9_delete_missing (files : List (String × MemFile)) (fn : String)
    (baseDir : String) (fs : List (String × MemFile)) (fn2 : String)
    (habsent : fs.any (fun e => e.1 == filepathJoin baseDir fn2) = false) :
    (memoryDelete files fn).1 = none ∧
    (fileStorageDelete baseDir fs fn2).1.isSome = true := by
  constructor
  · unfold memoryDelete
    split <;> rfl
  · unfold fileStorageDelete osRemove
    rw [habsent]
    rfl

/-- C9 witness: the amended deletion behaviour at concrete stores — a
one-entry memory store and an empty file-backend store. -/
theorem C9_delete_missing_witness :
    (memoryDelete [("a.pprof", { data := [1], modTime := 5 })] "b.pprof").1 = none ∧
    (fileStorageDelete "./profiles" [] "cpu/p.pprof").1.isSome = true :=
  C9_delete_missing [("a.pprof", { data := [1], modTime := 5 })] "b.pprof"
    "./profiles" [] "cpu/p.pprof" (by decide)

/-! ### Profile sessions (src/unnamed/part_005).  The runtime captures
(`pprof.StartCPUProfile` buffer contents, `pprof.WriteHeapProfile`,
`pprof.Lookup("goroutine").WriteTo`) are external effects, passed in as
the `buffer`/`capture` arguments; each `Stop` returns the bytes and an
optional error, plus the successor session state. -/

/-- State of `CPUProfileSession`: the running flag and the bytes the
process-global sampler has written into the session's buffer. -/
structure CPUProfileSession where
  running : Bool
  buffer : List Nat
deriving Repr, DecidableEq, Inhabited

/-- `CPUProfileSession.Stop`: when already stopped, return the buffer
with no error; otherwise detach the sampler, clear the running flag and
return the buffer. -/
def cpuStop (s : CPUProfileSession) : (List Nat × Option String) × CPUProfileSession :=
  if !s.running then ((s.buffer, none), s)
  else ((s.buffer, none), { s with running := false })

/-- State of `HeapProfileSession`: running and stopped flags. -/
structure HeapProfileSession where
  running : Bool
  stopped : Bool
deriving Repr, DecidableEq, Inhabited

/-- `HeapProfileSession.Stop`: when already stopped, return `nil, nil`;
otherwise mark the session stopped and snapshot the heap profile
(`capture` is the outcome of `pprof.WriteHeapProfile`; on its failure the
source returns `nil` bytes with the error). -/
def heapStop (s : HeapProfileSession) (capture : Except String (List Nat)) :
    (List Nat × Option String) × HeapProfileSession :=
  if s.stopped then (([], none), s)
  else
    let s2 : HeapProfileSession := { running := false, stopped := true }
    match capture with
    | .error e => (([], some e), s2)
    | .ok data => ((data, none), s2)

/-- State of `GoroutineProfileSession`: running and stopped flags. -/
structure GoroutineProfileSession where
  running : Bool
  stopped : Bool
deriving Repr, DecidableEq, Inhabited

/-- `GoroutineProfileSession.Stop`: when already stopped, return
`nil, nil`; otherwise mark the session stopped and snapshot the goroutine
stack table (`capture` covers both the missing-profile and the `WriteTo`
failure paths of the source, which both return `nil` bytes and an
error). -/
def goroutineStop (s : GoroutineProfileSession)
    (capture : Except String (List Nat)) :
    (List Nat × Option String) × GoroutineProfileSession :=
  if s.stopped then (([], none), s)
  else
    let s2 : GoroutineProfileSession := { running := false, stopped := true }
    match capture with
    | .error e => (([], some e), s2)
    | .ok data => ((data, none), s2)

/-- C2 counterexample: for a heap session, the first call to `Stop`
returns the captured artifact and the second call returns `nil, nil`, so
two successive calls do not return equal byte sequences and the second
call does not return the already-captured bytes. -/
theorem C2_counterexample :
    (heapStop { running := true, stopped := false } (.ok [1])).1 = ([1], none)
    ∧ (heapStop (heapStop { running := true, stopped := false } (.ok [1])).2
        (.ok [1])).1 = ([], none)
    ∧ ([1] : List Nat) ≠ [] := by
  refine ⟨rfl, rfl, by decide⟩

/-- C2 (amended): a second successive `Stop` never errors; for a CPU
session it returns exactly what the first call returned (the buffered
artifact), but for heap and goroutine sessions it returns `nil` (empty)
bytes regardless of what the first call captured. -/
theorem C2_stop_idempotence (c : CPUProfileSession) (h : HeapProfileSession)
    (g : GoroutineProfileSession) (hc1 hc2 gc1 gc2 : Except String (List Nat)) :
    (cpuStop (cpuStop c).2).1 = (cpuStop c).1
    ∧ ((cpuStop (cpuStop c).2).1.2 = none)
    ∧ (heapStop (heapStop h hc1).2 hc2).1 = ([], none)
    ∧ (goroutineStop (goroutineStop g gc1).2 gc2).1 = ([], none) := by
  refine ⟨?_, ?_, ?_, ?_⟩
  · unfold cpuStop
    cases hr : c.running <;> simp [hr]
  · unfold cpuStop
    cases hr : c.running <;> simp [hr]
  · unfold heapStop
    cases hs : h.stopped
    · cases hc1 <;> simp [hs]
    · simp [hs]
  · unfold goroutineStop
    cases hs : g.stopped
    · cases gc1 <;> simp [hs]
    · simp [hs]

/-! ### The coordinator (src/pkg/core/manager.go).  Go maps are modelled
as association lists; `setKey` models map assignment (`m[k] = v`) by
replacing any binding of `k`, and iteration order over a map is
unspecified in Go, so the list order of the model is one legitimate
order. -/

/-- Look up a key in an association list (Go `v := m[k]` / `v, ok :=
m[k]`). -/
def lookupKey {α : Type} : List (String × α) → String → Option α
  | [], _ => none
  | e :: l, p => if e.1 == p then some e.2 else lookupKey l p

/-- Map assignment `m[k] = v`: any previous binding of `k` is replaced. -/
def setKey {α : Type} (l : List (String × α)) (k : String) (v : α) :
    List (String × α) :=
  (k, v) :: l.filter (fun e => !(e.1 == k))

/-- `count := m.requestCount[path]`: a missing key reads as zero. -/
def lookupCount (rc : List (String × Int)) (p : String) : Int :=
  (lookupKey rc p).getD 0

/-- The coordinator's mutable state: task table, statistics, per-path
request counters, and the number of tokens currently held in the
`limiter` channel (capacity `MaxConcurrent`). -/
structure ManagerState where
  tasks : List (String × ProfilingTask)
  stats : ProfilingStats
  requestCount : List (String × Int)
  limiter : Nat
deriving Repr, DecidableEq, Inhabited

/-- A fresh coordinator state as built by `NewManager`: empty task table
and counters, empty limiter, zeroed statistics stamped `now0`. -/
def ManagerState.init (now0 : Instant) : ManagerState :=
  { tasks := []
    stats := { totalRequests := 0, profiledCount := 0, failedCount := 0,
               activeProfiles := 0, lastUpdate := now0 }
    requestCount := []
    limiter := 0 }

/-- The scan in `ShouldProfile`: the first task in table order whose
template matches the request path under the path matcher and whose
method set matches the request method.  The concrete `PathMatcher` is an
external collaborator, abstracted as `matchFn`. -/
def findMatch (matchFn : String → String → Bool)
    (tasks : List (String × ProfilingTask)) (path method : String) :
    Option ProfilingTask :=
  match tasks.find? (fun e =>
      matchFn e.2.path path && ShouldMatchMethod e.2 method) with
  | some e => some e.2
  | none => none

/-- `Manager.ShouldProfile`: disabled short-circuit; scan for a matching
task; reject if `now` is strictly after its expiry (`time.Now().After`);
when `sample_rate > 1`, increment the per-path counter and admit only
when the new count is divisible by the rate; finally try to acquire a
limiter token without blocking, counting a failure when the channel is
full.  Returns the admitted task (or `none`) and the successor state. -/
def ShouldProfile (opts : Options) (matchFn : String → String → Bool)
    (s : ManagerState) (path method : String) (now : Instant) :
    Option ProfilingTask × ManagerState :=
  if !opts.enabled then (none, s)
  else
    match findMatch matchFn s.tasks path method with
    | none => (none, s)
    | some matchedTask =>
      if timeAfter now matchedTask.expiresAt then (none, s)
      else
        let sampled :=
          if 1 < matchedTask.sampleRate then
            let rc := setKey s.requestCount matchedTask.path
              (lookupCount s.requestCount matchedTask.path + 1)
            let count := lookupCount rc matchedTask.path
            ({ s with requestCount := rc },
              count % matchedTask.sampleRate == 0)
          else (s, true)
        if !sampled.2 then (none, sampled.1)
        else if sampled.1.limiter < opts.maxConcurrent then
          (some matchedTask, { sampled.1 with limiter := sampled.1.limiter + 1 })
        else
          (none, { sampled.1 with stats :=
            { sampled.1.stats with
                failedCount := sampled.1.stats.failedCount + 1 } })

/-- `Manager.releaseLimiter`: a non-blocking receive with a `default`
branch — a stray release against an empty channel is silently dropped. -/
def releaseLimiter (l : Nat) : Nat := if 0 < l then l - 1 else l

/-- `Manager.StartProfiling`: an unregistered profile type releases the
permit and fails; a failing profiler start releases the permit, counts a
failure and fails; otherwise the active and profiled counters are
incremented.  The registered profiler set is the list of type strings;
whether the runtime start call fails is the external input
`startFails`. -/
def StartProfiling (profilers : List String) (s : ManagerState)
    (task : ProfilingTask) (startFails : Bool) : Bool × ManagerState :=
  if !(profilers.contains task.profileType) then
    (false, { s with limiter := releaseLimiter s.limiter })
  else if startFails then
    (false,
      { s with
        limiter := releaseLimiter s.limiter
        stats := { s.stats with failedCount := s.stats.failedCount + 1 } })
  else
    (true,
      { s with
        stats := { s.stats with
                   activeProfiles := s.stats.activeProfiles + 1,
                   profiledCount := s.stats.profiledCount + 1 } })

/-- The outcome of `Manager.StopProfiling`: the result record, the error
returned, whether `storage.Save` was invoked, and the successor state. -/
structure StopOutput where
  result : ProfilingResult
  error : Option String
  saveCalled : Bool
  state : ManagerState
deriving Repr, DecidableEq, Inhabited

/-- `Manager.StopProfiling`: releases the permit on every exit path
(deferred), decrements the active counter, and on a successful stop with
non-empty bytes synthesizes a filename and saves the artifact.
`stopResult` is what `session.Stop()` returned (`ok bytes` for a nil
error) and `saveErr` is what `storage.Save` would return if invoked. -/
def StopProfiling (s : ManagerState) (path method : String)
    (task : ProfilingTask) (sessionStart : Instant)
    (stopResult : Except String (List Nat)) (saveErr : Option String)
    (now : Instant) (tz : Int) : StopOutput :=
  let stats1 := { s.stats with activeProfiles := s.stats.activeProfiles - 1 }
  let base : ProfilingResult :=
    { path := path, startTime := sessionStart,
      duration := (now : Int) - (sessionStart : Int), filename := "",
      fileSize := 0, profileType := task.profileType, success := true,
      error := "" }
  match stopResult with
  | .error e =>
    { result := { base with success := false, error := e }
      error := some e
      saveCalled := false
      state := { s with
        stats := { stats1 with failedCount := stats1.failedCount + 1 },
        limiter := releaseLimiter s.limiter } }
  | .ok data =>
    if data.length == 0 then
      { result := base
        error := none
        saveCalled := false
        state := { s with stats := stats1, limiter := releaseLimiter s.limiter } }
    else
      let filename := generateFilename tz now path method task.profileType
      let r1 :=
        { base with
          filename := filename
          fileSize := (data.length : Int) }
      match saveErr with
      | some e =>
        { result := { r1 with success := false, error := e }
          error := some e
          saveCalled := true
          state := { s with
            stats := { stats1 with failedCount := stats1.failedCount + 1 },
            limiter := releaseLimiter s.limiter } }
      | none =>
        { result := r1
          error := none
          saveCalled := true
          state := { s with
            stats := stats1,
            limiter := releaseLimiter s.limiter } }

/-- `Manager.updateTasks`: build a fresh path-keyed map from the new list
(later declarations overwrite earlier ones), swap it in, stamp
`last_update`, and drop request counters whose path is no longer in the
table. -/
def buildTaskMap (newTasks : List ProfilingTask) :
    List (String × ProfilingTask) :=
  newTasks.foldl (fun taskMap task => setKey taskMap task.path task) []

/-- `Manager.updateTasks` on the coordinator state. -/
def updateTasks (s : ManagerState) (newTasks : List ProfilingTask)
    (now : Instant) : ManagerState :=
  let taskMap := buildTaskMap newTasks
  { s with
    tasks := taskMap
    stats := { s.stats with lastUpdate := now }
    requestCount := s.requestCount.filter (fun e =>
      taskMap.any (fun te => te.1 == e.1)) }

/-- `Manager.cleanExpiredTasks`: drop every task strictly past its
expiry, together with its request counter entry. -/
def cleanExpiredTasks (s : ManagerState) (now : Instant) : ManagerState :=
  { s with
    tasks := s.tasks.filter (fun e => !(timeAfter now e.2.expiresAt))
    requestCount := s.requestCount.filter (fun e =>
      !(s.tasks.any (fun te => te.1 == e.1 && timeAfter now te.2.expiresAt))) }

/-- C8: when `session.Stop` returns empty (or nil) bytes with no error,
the result reports success, no filename is synthesized, and
`storage.Save` is not called. -/
theorem C8_empty_artifact (s : ManagerState) (path method : String)
    (task : ProfilingTask) (st : Instant) (saveErr : Option String)
    (now : Instant) (tz : Int) :
    (StopProfiling s path method task st (.ok []) saveErr now tz).result.success
      = true
    ∧ (StopProfiling s path method task st (.ok []) saveErr now tz).result.filename
      = ""
    ∧ (StopProfiling s path method task st (.ok []) saveErr now tz).saveCalled
      = false
    ∧ (StopProfiling s path method task st (.ok []) saveErr now tz).error
      = none := by
  refine ⟨rfl, rfl, rfl, rfl⟩

/-- C7 witness: the filename equality at a concrete path, method, type
and instant. -/
theorem C7_filename_witness :
    generateFilename 0 1730000000123456789 "/a/:id" "GET" "cpu" =
      specFilename 0 1730000000123456789 "/a/:id" "GET" "cpu" :=
  (C7_filename 0 1730000000123456789 "/a/:id" "GET" "cpu").1

/-! ### Task expiry (claim C5) -/

/-- A concrete task expiring at instant 100. -/
def expiryTask : ProfilingTask :=
  { path := "/a", methods := [], expiresAt := 100, duration := 30,
    sampleRate := 1, profileType := "cpu" }

/-- A concrete coordinator options record: limiter capacity 1, enabled. -/
def opts1 : Options := { maxConcurrent := 1, enabled := true }

/-- Exact string equality as a concrete path matcher. -/
def eqMatch (template actual : String) : Bool := template == actual

/-- A concrete coordinator state whose table holds only `expiryTask`. -/
def expiryState : ManagerState :=
  { tasks := [("/a", expiryTask)]
    stats := { totalRequests := 0, profiledCount := 0, failedCount := 0,
               activeProfiles := 0, lastUpdate := 0 }
    requestCount := []
    limiter := 0 }

/-- C5 counterexample: at the instant `now` exactly equal to
`expires_at` (now = expires_at = 100) the request is still admitted,
because the source rejects only when `time.Now().After(expiresAt)`,
a strict comparison; the claim demands rejection at `now ≥ expires_at`. -/
theorem C5_counterexample :
    expiryTask.expiresAt ≤ 100 ∧
    (ShouldProfile opts1 eqMatch expiryState "/a" "GET" 100).1 = some expiryTask := by
  constructor
  · decide
  · decide

/-- C5 (amended): once `now` is strictly after `task.expires_at`, a
request whose candidate task is that task is rejected and the state —
request counters included — is untouched; since this holds for every
state and every strictly-later instant, no admission for the task occurs
from that point on.  At `now` exactly equal to `expires_at` the task is
still admissible. -/
theorem C5_expiry (opts : Options) (matchFn : String → String → Bool)
    (s : ManagerState) (path method : String) (now : Instant)
    (t : ProfilingTask) (hfind : findMatch matchFn s.tasks path method = some t)
    (hexp : t.expiresAt < now) :
    (ShouldProfile opts matchFn s path method now).1 = none
    ∧ (ShouldProfile opts matchFn s path method now).2 = s := by
  unfold ShouldProfile
  by_cases he : opts.enabled
  · rw [hfind]
    have hafter : timeAfter now t.expiresAt = true := by
      simpa [timeAfter] using hexp
    simp [he, hafter]
  · simp [he]

/-- C5 witness: the amended expiry rejection at the concrete state, one
nanosecond past the expiry instant. -/
theorem C5_expiry_witness :
    (ShouldProfile opts1 eqMatch expiryState "/a" "GET" 101).1 = none
    ∧ (ShouldProfile opts1 eqMatch expiryState "/a" "GET" 101).2 = expiryState :=
  C5_expiry opts1 eqMatch expiryState "/a" "GET" 101 expiryTask (by decide)
    (by decide)

/-! ### The silently discarded artifact (claim C10) -/

/-- C10: for a heap or goroutine session already stopped by its internal
duration timer (first `Stop` call, which captured the artifact), the
coordinator's subsequent `StopProfiling` receives `nil` bytes from the
second `Stop`, reports success with no filename, and never passes the
captured artifact to `storage.Save` — the artifact is silently
discarded. -/
theorem C10_artifact_discarded (h : HeapProfileSession)
    (g : GoroutineProfileSession) (d1 e1 : List Nat)
    (c2 c3 : Except String (List Nat)) (s : ManagerState) (path method : String)
    (task : ProfilingTask) (st now : Instant) (tz : Int)
    (saveErr : Option String) (hh : h.stopped = false) (hg : g.stopped = false) :
    (heapStop h (.ok d1)).1 = (d1, none)
    ∧ (heapStop (heapStop h (.ok d1)).2 c2).1 = ([], none)
    ∧ (goroutineStop g (.ok e1)).1 = (e1, none)
    ∧ (goroutineStop (goroutineStop g (.ok e1)).2 c3).1 = ([], none)
    ∧ (StopProfiling s path method task st (.ok []) saveErr now tz).result.success
        = true
    ∧ (StopProfiling s path method task st (.ok []) saveErr now tz).result.filename
        = ""
    ∧ (StopProfiling s path method task st (.ok []) saveErr now tz).saveCalled
        = false := by
  refine ⟨?_, ?_, ?_, ?_, rfl, rfl, rfl⟩
  · simp [heapStop, hh]
  · simp [heapStop, hh]
  · simp [goroutineStop, hg]
  · simp [goroutineStop, hg]

/-- C10 witness: the discard scenario at a concrete fresh heap session,
a concrete fresh goroutine session and a concrete coordinator state. -/
theorem C10_artifact_discarded_witness :
    (heapStop { running := true, stopped := false } (.ok [7])).1 = ([7], none)
    ∧ (heapStop (heapStop { running := true, stopped := false } (.ok [7])).2
        (.ok [9])).1 = ([], none)
    ∧ (goroutineStop { running := true, stopped := false } (.ok [8])).1
        = ([8], none)
    ∧ (goroutineStop
        (goroutineStop { running := true, stopped := false } (.ok [8])).2
        (.ok [9])).1 = ([], none)
    ∧ (StopProfiling expiryState "/a" "GET" expiryTask 5 (.ok []) none 9 0).result.success
        = true
    ∧ (StopProfiling expiryState "/a" "GET" expiryTask 5 (.ok []) none 9 0).result.filename
        = ""
    ∧ (StopProfiling expiryState "/a" "GET" expiryTask 5 (.ok []) none 9 0).saveCalled
        = false :=
  C10_artifact_discarded { running := true, stopped := false }
    { running := true, stopped := false } [7] [8] (.ok [9]) (.ok [9])
    expiryState "/a" "GET" expiryTask 5 9 0 none rfl rfl

/-! ### Task-table replacement (claim C4) -/

/-- Filtering out the bindings of one key does not change lookups of a
different key. -/
theorem lookupKey_filter_ne {α : Type} (l : List (String × α)) (k q : String)
    (hkq : k ≠ q) :
    lookupKey (l.filter (fun e => !(e.1 == k))) q = lookupKey l q := by
  induction l with
  | nil => rfl
  | cons e l ih =>
    by_cases hek : e.1 = k
    · have h2 : (e.1 == q) = false :=
        beq_eq_false_iff_ne.mpr (fun hq => hkq (hek.symm.trans hq))
      rw [List.filter_cons, if_neg (by simp [hek]), ih]
      simp [lookupKey, h2]
    · rw [List.filter_cons, if_pos (by simp [hek])]
      by_cases heq : (e.1 == q) = true
      · simp [lookupKey, heq]
      · simp only [Bool.not_eq_true] at heq
        simp [lookupKey, heq, ih]

/-- Lookup after a map assignment: the assigned key reads the new value,
all other keys are unchanged. -/
theorem lookupKey_setKey {α : Type} (l : List (String × α)) (k q : String)
    (v : α) :
    lookupKey (setKey l k v) q = if k = q then some v else lookupKey l q := by
  unfold setKey
  by_cases hkq : k = q
  · simp [lookupKey, hkq]
  · have hk : (k == q) = false := beq_eq_false_iff_ne.mpr hkq
    simp only [lookupKey, hk, Bool.false_eq_true, if_false, if_neg hkq]
    exact lookupKey_filter_ne l k q hkq

/-- Lookup in the folded task map: the last declaration with the looked-up
path wins, falling back to the accumulator. -/
theorem lookupKey_foldl_setKey (L : List ProfilingTask)
    (acc : List (String × ProfilingTask)) (p : String) :
    lookupKey (L.foldl (fun taskMap task => setKey taskMap task.path task) acc) p
      =
      match L.reverse.find? (fun t => t.path == p) with
      | some t => some t
      | none => lookupKey acc p := by
  induction L generalizing acc with
  | nil => simp
  | cons t L ih =>
    simp only [List.foldl_cons, List.reverse_cons, List.find?_append]
    rw [ih]
    cases hf : L.reverse.find? (fun t => t.path == p) with
    | some u => simp [Option.or]
    | none =>
      simp only [Option.or]
      rw [lookupKey_setKey]
      by_cases htp : t.path = p
      · simp [List.find?, htp]
      · have : (t.path == p) = false := beq_eq_false_iff_ne.mpr htp
        simp [List.find?, this, htp]

/-- The task table built by `updateTasks` maps each path to the last task
in the new list declaring it. -/
theorem lookupKey_buildTaskMap (L : List ProfilingTask) (p : String) :
    lookupKey (buildTaskMap L) p = L.reverse.find? (fun t => t.path == p) := by
  unfold buildTaskMap
  rw [lookupKey_foldl_setKey]
  cases hf : L.reverse.find? (fun t => t.path == p) <;> simp [lookupKey]

/-- Every entry of the folded task map is keyed by its task's path and
holds a task from the new list or from the accumulator. -/
theorem mem_foldl_setKey (L : List ProfilingTask)
    (acc : List (String × ProfilingTask)) :
    ∀ e ∈ L.foldl (fun taskMap task => setKey taskMap task.path task) acc,
      e ∈ acc ∨ (e.2 ∈ L ∧ e.1 = e.2.path) := by
  induction L generalizing acc with
  | nil =>
    intro e he
    exact Or.inl he
  | cons t L ih =>
    intro e he
    rcases ih (setKey acc t.path t) e he with hacc | hL
    · rcases List.mem_cons.mp hacc with heq | hfil
      · right
        refine ⟨?_, ?_⟩
        · rw [heq]
          exact List.mem_cons_self t L
        · rw [heq]
      · exact Or.inl (List.mem_filter.mp hfil).1
    · exact Or.inr ⟨List.mem_cons_of_mem t hL.1, hL.2⟩

/-- Every entry of `buildTaskMap L` comes from `L` and is keyed by its
task's path. -/
theorem mem_buildTaskMap (L : List ProfilingTask) :
    ∀ e ∈ buildTaskMap L, e.2 ∈ L ∧ e.1 = e.2.path := by
  intro e he
  rcases mem_foldl_setKey L [] e he with h | h
  · cases h
  · exact h

/-- An admitted task was the candidate the table scan selected. -/
theorem ShouldProfile_some (opts : Options) (matchFn : String → String → Bool)
    (s : ManagerState) (path method : String) (now : Instant)
    (u : ProfilingTask)
    (h : (ShouldProfile opts matchFn s path method now).1 = some u) :
    findMatch matchFn s.tasks path method = some u := by
  by_cases he : opts.enabled
  · cases hf : findMatch matchFn s.tasks path method with
    | none => simp [ShouldProfile, he, hf] at h
    | some mt =>
      simp only [ShouldProfile, he, hf, Bool.not_true, Bool.false_eq_true,
        if_false] at h
      by_cases hexp : timeAfter now mt.expiresAt
      · simp [hexp] at h
      · simp only [hexp, Bool.false_eq_true, if_false] at h
        repeat' split at h
        all_goals simp_all
  · simp [ShouldProfile, he] at h

/-- C4: after `updateTasks(L)`, the task table is exactly the path-keyed
map of `L` with the last declaration winning on duplicate paths,
`last_update` is stamped, the request counter holds no path absent from
`L`, and any task admitted by a subsequent `ShouldProfile` is a task of
`L` — the coordinator behaves as if only tasks in `L` existed. -/
theorem C4_updateTasks (opts : Options) (matchFn : String → String → Bool)
    (s : ManagerState) (L : List ProfilingTask) (now : Instant) :
    (updateTasks s L now).tasks = buildTaskMap L
    ∧ (updateTasks s L now).stats.lastUpdate = now
    ∧ (∀ p, lookupKey (updateTasks s L now).tasks p =
        L.reverse.find? (fun t => t.path == p))
    ∧ (∀ e ∈ (updateTasks s L now).requestCount, ∃ t ∈ L, t.path = e.1)
    ∧ (∀ path method now2 u,
        (ShouldProfile opts matchFn (updateTasks s L now) path method now2).1
          = some u → u ∈ L) := by
  refine ⟨rfl, rfl, ?_, ?_, ?_⟩
  · intro p
    exact lookupKey_buildTaskMap L p
  · intro e he
    have hmem := (List.mem_filter.mp he).2
    rcases List.any_eq_true.mp hmem with ⟨te, hte, hkey⟩
    refine ⟨te.2, (mem_buildTaskMap L te hte).1, ?_⟩
    rw [← (mem_buildTaskMap L te hte).2]
    exact eq_of_beq hkey
  · intro path method now2 u h
    have hfind := ShouldProfile_some opts matchFn _ path method now2 u h
    unfold findMatch at hfind
    cases hf : List.find? (fun e =>
        matchFn e.2.path path && ShouldMatchMethod e.2 method)
        (updateTasks s L now).tasks with
    | none => rw [hf] at hfind; simp at hfind
    | some e =>
      rw [hf] at hfind
      simp only [Option.some.injEq] at hfind
      have hmem : e ∈ buildTaskMap L := List.mem_of_find?_eq_some hf
      rw [← hfind]
      exact (mem_buildTaskMap L e hmem).1

/-- A second concrete task on the same path as `expiryTask`, used to
exhibit last-declaration-wins. -/
def expiryTask2 : ProfilingTask :=
  { path := "/a", methods := ["*"], expiresAt := 900, duration := 10,
    sampleRate := 3, profileType := "heap" }

/-- C4 witness: updating with two declarations of the same path keeps the
later one. -/
theorem C4_updateTasks_witness :
    lookupKey (updateTasks expiryState [expiryTask, expiryTask2] 42).tasks "/a"
      = some expiryTask2 :=
  ((C4_updateTasks opts1 eqMatch expiryState [expiryTask, expiryTask2]
    42).2.2.1 "/a").trans (by decide)

/-! ### Concurrency bound (claim C3).  The per-session protocol is
`ShouldProfile` (admission, acquiring a permit) followed by
`StartProfiling` (which releases the permit on failure) followed by
`StopProfiling` (which always releases the permit).  The system state
tracks how many admitted-but-not-yet-started and started-but-not-yet-
stopped sessions exist. -/

/-- Effect of an admission call on the statistics, the limiter and the
admission outcome: the active counter is untouched, the limiter grows by
one exactly on admission, and admission implies a free permit existed. -/
theorem ShouldProfile_state (opts : Options) (matchFn : String → String → Bool)
    (s : ManagerState) (path method : String) (now : Instant) :
    (ShouldProfile opts matchFn s path method now).2.stats.activeProfiles
      = s.stats.activeProfiles
    ∧ (ShouldProfile opts matchFn s path method now).2.limiter
      = s.limiter +
        (if (ShouldProfile opts matchFn s path method now).1.isSome then 1 else 0)
    ∧ ((ShouldProfile opts matchFn s path method now).1.isSome = true →
        s.limiter < opts.maxConcurrent) := by
  unfold ShouldProfile
  by_cases he : opts.enabled
  case neg => simp [he]
  case pos =>
    simp only [he, Bool.not_true, Bool.false_eq_true, if_false]
    cases hf : findMatch matchFn s.tasks path method with
    | none => simp
    | some mt =>
      by_cases hexp : timeAfter now mt.expiresAt
      · simp [hexp]
      · simp only [hexp, Bool.false_eq_true, if_false]
        by_cases hsr : 1 < mt.sampleRate
        · simp only [hsr, if_true]
          by_cases hpass : (lookupCount (setKey s.requestCount mt.path
              (lookupCount s.requestCount mt.path + 1)) mt.path
              % mt.sampleRate == 0) = true
          · simp only [hpass, Bool.not_true, Bool.false_eq_true, if_false]
            by_cases hlim : s.limiter < opts.maxConcurrent
            · simp [hlim]
            · simp [hlim]
          · simp only [Bool.not_eq_true] at hpass
            simp [hpass]
        · simp only [hsr, if_false]
          by_cases hlim : s.limiter < opts.maxConcurrent
          · simp [hlim]
          · simp [hlim]

/-- Effect of a session start on the limiter and the active counter: on
failure the permit is released, on success the active counter grows. -/
theorem StartProfiling_state (profilers : List String) (s : ManagerState)
    (task : ProfilingTask) (startFails : Bool) :
    (StartProfiling profilers s task startFails).2.limiter
      = (if (StartProfiling profilers s task startFails).1 then s.limiter
         else releaseLimiter s.limiter)
    ∧ (StartProfiling profilers s task startFails).2.stats.activeProfiles
      = s.stats.activeProfiles +
        (if (StartProfiling profilers s task startFails).1 then 1 else 0) := by
  refine ⟨?_, ?_⟩ <;>
    · unfold StartProfiling
      repeat' split
      all_goals simp_all

/-- Effect of a session stop: the permit is released on every exit path
and the active counter is decremented exactly once. -/
theorem StopProfiling_state (s : ManagerState) (path method : String)
    (task : ProfilingTask) (st : Instant) (stopR : Except String (List Nat))
    (saveE : Option String) (now : Instant) (tz : Int) :
    (StopProfiling s path method task st stopR saveE now tz).state.limiter
      = releaseLimiter s.limiter
    ∧ (StopProfiling s path method task st stopR saveE now tz).state.stats.activeProfiles
      = s.stats.activeProfiles - 1 := by
  refine ⟨?_, ?_⟩ <;>
    · unfold StopProfiling
      cases stopR <;> repeat' split
      all_goals simp_all

/-- Whole-system state: the coordinator plus the number of sessions that
hold a permit but have not started, and the number of running sessions. -/
structure SysState where
  mgr : ManagerState
  admitted : Nat
  running : Nat
deriving Repr, DecidableEq, Inhabited

/-- One step of the coordinator protocol: an admission attempt, a session
start for an admitted request, a session stop for a running session, a
configuration swap, or an expiry sweep. -/
inductive Step (opts : Options) (matchFn : String → String → Bool)
    (profilers : List String) : SysState → SysState → Prop where
  | shouldProfile (σ : SysState) (path method : String) (now : Instant) :
      Step opts matchFn profilers σ
        { mgr := (ShouldProfile opts matchFn σ.mgr path method now).2
          admitted := σ.admitted +
            (if (ShouldProfile opts matchFn σ.mgr path method now).1.isSome
             then 1 else 0)
          running := σ.running }
  | startProfiling (σ : SysState) (task : ProfilingTask) (startFails : Bool)
      (hadm : 0 < σ.admitted) :
      Step opts matchFn profilers σ
        { mgr := (StartProfiling profilers σ.mgr task startFails).2
          admitted := σ.admitted - 1
          running := σ.running +
            (if (StartProfiling profilers σ.mgr task startFails).1
             then 1 else 0) }
  | stopProfiling (σ : SysState) (path method : String) (task : ProfilingTask)
      (st : Instant) (stopR : Except String (List Nat)) (saveE : Option String)
      (now : Instant) (tz : Int) (hrun : 0 < σ.running) :
      Step opts matchFn profilers σ
        { mgr := (StopProfiling σ.mgr path method task st stopR saveE now tz).state
          admitted := σ.admitted
          running := σ.running - 1 }
  | configUpdate (σ : SysState) (L : List ProfilingTask) (now : Instant) :
      Step opts matchFn profilers σ
        { mgr := updateTasks σ.mgr L now
          admitted := σ.admitted
          running := σ.running }
  | cleanup (σ : SysState) (now : Instant) :
      Step opts matchFn profilers σ
        { mgr := cleanExpiredTasks σ.mgr now
          admitted := σ.admitted
          running := σ.running }

/-- States reachable from a freshly constructed coordinator. -/
inductive Reachable (opts : Options) (matchFn : String → String → Bool)
    (profilers : List String) : SysState → Prop where
  | init (now0 : Instant) :
      Reachable opts matchFn profilers
        { mgr := ManagerState.init now0, admitted := 0, running := 0 }
  | step {σ σ2 : SysState} (hr : Reachable opts matchFn profilers σ)
      (hs : Step opts matchFn profilers σ σ2) :
      Reachable opts matchFn profilers σ2

/-- The protocol invariant: every admitted or running session holds one
limiter token, the limiter never exceeds its capacity, and the active
counter equals the number of running sessions. -/
def ProtocolInv (opts : Options) (σ : SysState) : Prop :=
  σ.mgr.limiter = σ.admitted + σ.running
  ∧ σ.mgr.limiter ≤ opts.maxConcurrent
  ∧ σ.mgr.stats.activeProfiles = (σ.running : Int)

/-- Each protocol step preserves the invariant. -/
theorem protocolInv_step (opts : Options) (matchFn : String → String → Bool)
    (profilers : List String) (σ σ2 : SysState) (hi : ProtocolInv opts σ)
    (hs : Step opts matchFn profilers σ σ2) : ProtocolInv opts σ2 := by
  obtain ⟨h1, h2, h3⟩ := hi
  cases hs with
  | shouldProfile path method now =>
    obtain ⟨ha, hl, hlt⟩ := ShouldProfile_state opts matchFn σ.mgr path method now
    refine ⟨?_, ?_, ?_⟩
    · show _ = (σ.admitted + _) + σ.running
      rw [hl, h1]
      split <;> omega
    · show _ ≤ _
      rw [hl]
      split
      · have := hlt (by assumption)
        omega
      · omega
    · show _ = ((σ.running : Nat) : Int)
      rw [ha, h3]
  | startProfiling task startFails hadm =>
    obtain ⟨hl, ha⟩ := StartProfiling_state profilers σ.mgr task startFails
    refine ⟨?_, ?_, ?_⟩
    · show _ = (σ.admitted - 1) + (σ.running + _)
      rw [hl]
      unfold releaseLimiter
      repeat' split
      all_goals omega
    · show _ ≤ _
      rw [hl]
      unfold releaseLimiter
      repeat' split
      all_goals omega
    · show _ = _
      rw [ha, h3]
      split <;> push_cast <;> ring
  | stopProfiling path method task st stopR saveE now tz hrun =>
    obtain ⟨hl, ha⟩ := StopProfiling_state σ.mgr path method task st stopR saveE
      now tz
    refine ⟨?_, ?_, ?_⟩
    · show _ = σ.admitted + (σ.running - 1)
      rw [hl]
      unfold releaseLimiter
      split <;> omega
    · show _ ≤ _
      rw [hl]
      unfold releaseLimiter
      split <;> omega
    · show _ = ((σ.running - 1 : Nat) : Int)
      rw [ha, h3]
      omega
  | configUpdate L now =>
    exact ⟨h1, h2, h3⟩
  | cleanup now =>
    exact ⟨h1, h2, h3⟩

/-- C3: in every reachable state of the
`ShouldProfile → StartProfiling → StopProfiling` protocol, the
`active_profiles` statistic never exceeds `MaxConcurrent`, the permit
pool never exceeds its capacity, and when the pool is exhausted an
admission attempt fails (returns no task) without blocking. -/
theorem C3_concurrency_bound (opts : Options) (matchFn : String → String → Bool)
    (profilers : List String) (σ : SysState)
    (h : Reachable opts matchFn profilers σ) :
    σ.mgr.stats.activeProfiles ≤ (opts.maxConcurrent : Int)
    ∧ σ.mgr.limiter ≤ opts.maxConcurrent
    ∧ (σ.mgr.limiter = opts.maxConcurrent →
        ∀ path method now,
          (ShouldProfile opts matchFn σ.mgr path method now).1 = none) := by
  have hinv : ProtocolInv opts σ := by
    induction h with
    | init now0 => exact ⟨rfl, Nat.zero_le _, rfl⟩
    | step hr hs ih => exact protocolInv_step opts matchFn profilers _ _ ih hs
  obtain ⟨h1, h2, h3⟩ := hinv
  refine ⟨?_, h2, ?_⟩
  · rw [h3]
    have hr : σ.running ≤ opts.maxConcurrent := by omega
    exact_mod_cast hr
  · intro hfull path method now
    obtain ⟨_, _, hlt⟩ := ShouldProfile_state opts matchFn σ.mgr path method now
    cases hio : (ShouldProfile opts matchFn σ.mgr path method now).1 with
    | none => rfl
    | some t =>
      have hcontra := hlt (by rw [hio]; rfl)
      rw [hfull] at hcontra
      exact absurd hcontra (lt_irrefl _)

/-- The default coordinator options: limiter capacity 3, enabled. -/
def optsDefault : Options := { maxConcurrent := 3, enabled := true }

/-- The profiler types registered by `NewManager`. -/
def coreProfilers : List String := ["cpu", "heap", "goroutine"]

/-- C3 witness: the concurrency bound at the freshly constructed
coordinator, which is reachable by construction. -/
theorem C3_concurrency_bound_witness :
    (SysState.mk (ManagerState.init 0) 0 0).mgr.stats.activeProfiles
      ≤ ((optsDefault.maxConcurrent : Nat) : Int)
    ∧ (SysState.mk (ManagerState.init 0) 0 0).mgr.limiter
      ≤ optsDefault.maxConcurrent
    ∧ ((SysState.mk (ManagerState.init 0) 0 0).mgr.limiter
        = optsDefault.maxConcurrent →
        ∀ path method now,
          (ShouldProfile optsDefault eqMatch
            (SysState.mk (ManagerState.init 0) 0 0).mgr path method now).1
            = none) :=
  C3_concurrency_bound optsDefault eqMatch coreProfilers
    (SysState.mk (ManagerState.init 0) 0 0) (Reachable.init 0)

/-! ### Sampling (claim C1) -/

/-- One incoming request: route template path, method, arrival instant. -/
structure Request where
  path : String
  method : String
  now : Instant
deriving Repr, DecidableEq, Inhabited

/-- The request's candidate is task `t` and `t` has not expired at the
request's instant: the request passes route matching, method matching
and expiry for `t`. -/
def matchedB (matchFn : String → String → Bool)
    (tasks : List (String × ProfilingTask)) (t : ProfilingTask)
    (r : Request) : Bool :=
  (findMatch matchFn tasks r.path r.method == some t)
    && !(timeAfter r.now t.expiresAt)

/-- The request is rejected before the sampling step: no task matches
(covering no-route and method mismatch), or the selected candidate has
expired. -/
def rejectedEarly (matchFn : String → String → Bool)
    (tasks : List (String × ProfilingTask)) (r : Request) : Bool :=
  match findMatch matchFn tasks r.path r.method with
  | none => true
  | some u => timeAfter r.now u.expiresAt

/-- Drive a sequence of per-request admissions through `ShouldProfile`.
After each admitted request its session is stopped before the next
request arrives, which releases the permit (the deferred
`releaseLimiter` of `StopProfiling`).  Returns the final coordinator
state and the number of admitted requests. -/
def runRequests (opts : Options) (matchFn : String → String → Bool) :
    ManagerState → List Request → ManagerState × Nat
  | s, [] => (s, 0)
  | s, r :: rs =>
    let out := ShouldProfile opts matchFn s r.path r.method r.now
    let s2 := if out.1.isSome
      then { out.2 with limiter := releaseLimiter out.2.limiter }
      else out.2
    let rest := runRequests opts matchFn s2 rs
    (rest.1, (if out.1.isSome then 1 else 0) + rest.2)

/-- A request rejected for no-match or expiry is not a matched request. -/
theorem rejected_not_matched (matchFn : String → String → Bool)
    (tasks : List (String × ProfilingTask)) (t : ProfilingTask) (r : Request)
    (h : rejectedEarly matchFn tasks r = true) :
    matchedB matchFn tasks t r = false := by
  unfold rejectedEarly at h
  unfold matchedB
  cases hf : findMatch matchFn tasks r.path r.method with
  | none => simp [hf]
  | some u =>
    rw [hf] at h
    have h2 : timeAfter r.now u.expiresAt = true := by simpa using h
    by_cases hut : u = t
    · subst hut
      simp [h2]
    · simp [beq_iff_eq, hut]

/-- Reading back the counter just written by the sampling step. -/
theorem lookupCount_setKey_self (l : List (String × Int)) (p : String) (v : Int) :
    lookupCount (setKey l p v) p = v := by
  unfold lookupCount
  rw [lookupKey_setKey]
  simp

/-- A request rejected for no-match or expiry leaves the coordinator
state — the request counter included — untouched and is not admitted. -/
theorem ShouldProfile_rejected (opts : Options)
    (matchFn : String → String → Bool) (s : ManagerState) (r : Request)
    (h : rejectedEarly matchFn s.tasks r = true) :
    ShouldProfile opts matchFn s r.path r.method r.now = (none, s) := by
  unfold rejectedEarly at h
  unfold ShouldProfile
  by_cases he : opts.enabled
  · simp only [he, Bool.not_true, Bool.false_eq_true, if_false]
    cases hf : findMatch matchFn s.tasks r.path r.method with
    | none => simp
    | some u =>
      rw [hf] at h
      have h2 : timeAfter r.now u.expiresAt = true := by simpa using h
      simp [h2]
  · simp [he]

/-- Effect of one admission call for a request matching task `t` when the
limiter is empty: the table is unchanged; the limiter holds one token
exactly when the request is admitted; with `sample_rate > 1` the counter
is ticked once and admission is divisibility of the new count; with
`sample_rate = 1` the counter is untouched and the request is admitted. -/
theorem ShouldProfile_matched (opts : Options)
    (matchFn : String → String → Bool) (s : ManagerState) (t : ProfilingTask)
    (r : Request) (N : Nat) (henabled : opts.enabled = true)
    (hmax : 0 < opts.maxConcurrent) (hlim : s.limiter = 0)
    (hrate : t.sampleRate = (N : Int))
    (hm : matchedB matchFn s.tasks t r = true) :
    (ShouldProfile opts matchFn s r.path r.method r.now).2.tasks = s.tasks
    ∧ (ShouldProfile opts matchFn s r.path r.method r.now).2.limiter
      = (if (ShouldProfile opts matchFn s r.path r.method r.now).1.isSome
         then 1 else 0)
    ∧ (1 < N →
        (ShouldProfile opts matchFn s r.path r.method r.now).2.requestCount
          = setKey s.requestCount t.path (lookupCount s.requestCount t.path + 1)
        ∧ (ShouldProfile opts matchFn s r.path r.method r.now).1.isSome
          = ((lookupCount s.requestCount t.path + 1) % (N : Int) == 0))
    ∧ (¬ 1 < N →
        (ShouldProfile opts matchFn s r.path r.method r.now).2.requestCount
          = s.requestCount
        ∧ (ShouldProfile opts matchFn s r.path r.method r.now).1.isSome
          = true) := by
  have hm2 := hm
  unfold matchedB at hm2
  rw [Bool.and_eq_true] at hm2
  obtain ⟨hf0, hexp0⟩ := hm2
  have hf : findMatch matchFn s.tasks r.path r.method = some t := eq_of_beq hf0
  have hexp : timeAfter r.now t.expiresAt = false := by simpa using hexp0
  have hlt : s.limiter < opts.maxConcurrent := by
    rw [hlim]
    exact hmax
  unfold ShouldProfile
  simp only [henabled, Bool.not_true, Bool.false_eq_true, if_false, hf, hexp,
    hrate]
  by_cases h1N : 1 < N
  · have h1NI : (1 : Int) < (N : Int) := by exact_mod_cast h1N
    simp only [if_pos h1NI, lookupCount_setKey_self]
    by_cases hpass :
        ((lookupCount s.requestCount t.path + 1) % (N : Int) == 0) = true
    · simp only [hpass, Bool.not_true, Bool.false_eq_true, if_false,
        if_pos hlt]
      simp [h1N, hlim, hpass]
    · simp only [Bool.not_eq_true] at hpass
      simp only [hpass, Bool.not_false, if_pos trivial]
      simp [h1N, hlim, hpass]
  · have h1NI : ¬ ((1 : Int) < (N : Int)) := by exact_mod_cast h1N
    simp only [if_neg h1NI, Bool.not_true, Bool.false_eq_true, if_false,
      if_pos hlt]
    simp [h1N, hlim]

/-- Casting a natural count into the coordinator's 64-bit counter does
not change the zero test. -/
theorem natCast_beq_zero (x : Nat) : (((x : Nat) : Int) == 0) = (x == 0) := by
  by_cases hx : x = 0
  · simp [hx]
  · have h1 : ((x : Int) == 0) = false :=
      beq_eq_false_iff_ne.mpr (by exact_mod_cast hx)
    have h2 : (x == 0) = false := beq_eq_false_iff_ne.mpr hx
    rw [h1, h2]

/-- The arithmetic step for an admitted sampled request. -/
theorem div_count_step (a b M : Nat) (h1 : b = a + 1) (h2 : b ≤ M) :
    1 + (M - b) = M - a := by omega

/-- Invariants of a run of admissions: starting from an empty limiter and
a counter reading `c` for `t.path`, the number of admissions is
`(c + matched) / N - c / N`, the table is unchanged, the limiter ends
empty, and the counter ends at `c + matched` when `N > 1` and at `c`
otherwise. -/
theorem runRequests_spec (opts : Options) (matchFn : String → String → Bool)
    (T : List (String × ProfilingTask)) (t : ProfilingTask) (N : Nat)
    (hN : 1 ≤ N) (hrate : t.sampleRate = (N : Int))
    (henabled : opts.enabled = true) (hmax : 0 < opts.maxConcurrent)
    (reqs : List Request) :
    ∀ (s : ManagerState) (c : Nat),
      s.tasks = T → s.limiter = 0 →
      lookupCount s.requestCount t.path = (c : Int) →
      (∀ r ∈ reqs, matchedB matchFn T t r = true
        ∨ rejectedEarly matchFn T r = true) →
      (runRequests opts matchFn s reqs).2
        = (c + (reqs.filter (fun r => matchedB matchFn T t r)).length) / N
          - c / N
      ∧ (runRequests opts matchFn s reqs).1.tasks = T
      ∧ (runRequests opts matchFn s reqs).1.limiter = 0
      ∧ lookupCount (runRequests opts matchFn s reqs).1.requestCount t.path
        = (((if 1 < N then
              c + (reqs.filter (fun r => matchedB matchFn T t r)).length
            else c) : Nat) : Int) := by
  induction reqs with
  | nil =>
    intro s c hT hlim hc hreqs
    refine ⟨by simp [runRequests], by simpa [runRequests] using hT,
      by simpa [runRequests] using hlim, ?_⟩
    simp only [runRequests, List.filter_nil, List.length_nil, Nat.add_zero,
      ite_self]
    exact hc
  | cons r rs ih =>
    intro s c hT hlim hc hreqs
    have hrest : ∀ x ∈ rs, matchedB matchFn T t x = true
        ∨ rejectedEarly matchFn T x = true :=
      fun x hx => hreqs x (List.mem_cons_of_mem r hx)
    rcases hreqs r (List.mem_cons_self r rs) with hmr | hrej
    · -- the request matches t and passes expiry
      have hm2 : matchedB matchFn s.tasks t r = true := by
        rw [hT]
        exact hmr
      obtain ⟨hA, hB, hC, hD⟩ := ShouldProfile_matched opts matchFn s t r N
        henabled hmax hlim hrate hm2
      have hfc : List.filter (fun x => matchedB matchFn T t x) (r :: rs)
          = r :: List.filter (fun x => matchedB matchFn T t x) rs :=
        List.filter_cons_of_pos hmr
      by_cases h1N : 1 < N
      · obtain ⟨hrc, hiso⟩ := hC h1N
        have hiso2 : (ShouldProfile opts matchFn s r.path r.method r.now).1.isSome
            = ((c + 1) % N == 0) := by
          rw [hiso, hc]
          rw [show ((c : Int) + 1) % (N : Int) = (((c + 1) % N : Nat) : Int)
            from by push_cast; ring]
          exact natCast_beq_zero _
        have hcnt : lookupCount
            (ShouldProfile opts matchFn s r.path r.method r.now).2.requestCount
            t.path = ((c + 1 : Nat) : Int) := by
          rw [hrc, lookupCount_setKey_self, hc]
          push_cast
          ring
        by_cases hdvd : (c + 1) % N = 0
        · -- sampled in: admitted, permit then released by the stop
          have hiso3 : (ShouldProfile opts matchFn s r.path r.method
              r.now).1.isSome = true := by
            rw [hiso2, hdvd]
            rfl
          have hlim1 : (ShouldProfile opts matchFn s r.path r.method
              r.now).2.limiter = 1 := by
            rw [hB, hiso3]
            rfl
          obtain ⟨k1, k2, k3, k4⟩ := ih
            { (ShouldProfile opts matchFn s r.path r.method r.now).2 with
              limiter := releaseLimiter
                (ShouldProfile opts matchFn s r.path r.method r.now).2.limiter }
            (c + 1) (by simpa using hA.trans hT)
            (by simp [hlim1, releaseLimiter]) (by simpa using hcnt) hrest
          have hdvd2 := Nat.dvd_of_mod_eq_zero hdvd
          have hsd : (c + 1) / N = c / N + 1 := by
            rw [Nat.succ_div, if_pos hdvd2]
          refine ⟨?_, ?_, ?_, ?_⟩
          · simp only [runRequests, if_pos hiso3, hfc, List.length_cons]
            rw [k1]
            have hmono : (c + 1) / N
                ≤ (c + 1 + (rs.filter
                    (fun x => matchedB matchFn T t x)).length) / N :=
              Nat.div_le_div_right (by omega)
            have hnum : c + ((rs.filter
                (fun x => matchedB matchFn T t x)).length + 1)
                = c + 1 + (rs.filter
                    (fun x => matchedB matchFn T t x)).length := by omega
            rw [hnum]
            exact div_count_step (c / N) ((c + 1) / N) _ hsd hmono
          · simpa only [runRequests, if_pos hiso3] using k2
          · simpa only [runRequests, if_pos hiso3] using k3
          · simp only [runRequests, if_pos hiso3, hfc, List.length_cons]
            rw [k4, if_pos h1N, if_pos h1N]
            norm_cast
            omega
        · -- sampled out: counter ticked, not admitted
          have hiso3 : (ShouldProfile opts matchFn s r.path r.method
              r.now).1.isSome = false := by
            rw [hiso2]
            exact beq_eq_false_iff_ne.mpr hdvd
          have hnot : ¬ ((ShouldProfile opts matchFn s r.path r.method
              r.now).1.isSome = true) := by
            rw [hiso3]
            exact Bool.false_ne_true
          have hlim0 : (ShouldProfile opts matchFn s r.path r.method
              r.now).2.limiter = 0 := by
            rw [hB, hiso3]
            rfl
          obtain ⟨k1, k2, k3, k4⟩ := ih
            (ShouldProfile opts matchFn s r.path r.method r.now).2
            (c + 1) (hA.trans hT) hlim0 hcnt hrest
          have hndvd : ¬ N ∣ (c + 1) :=
            fun hdd => hdvd (Nat.mod_eq_zero_of_dvd hdd)
          have hsd : (c + 1) / N = c / N := by
            rw [Nat.succ_div, if_neg hndvd]
            omega
          refine ⟨?_, ?_, ?_, ?_⟩
          · simp only [runRequests, if_neg hnot, hfc, List.length_cons,
              Nat.zero_add]
            rw [k1]
            have hnum : c + ((rs.filter
                (fun x => matchedB matchFn T t x)).length + 1)
                = c + 1 + (rs.filter
                    (fun x => matchedB matchFn T t x)).length := by omega
            rw [hnum, hsd]
          · simpa only [runRequests, if_neg hnot] using k2
          · simpa only [runRequests, if_neg hnot] using k3
          · simp only [runRequests, if_neg hnot, hfc, List.length_cons]
            rw [k4, if_pos h1N, if_pos h1N]
            norm_cast
            omega
      · -- sample_rate = 1 (or below): admitted, counter untouched
        obtain ⟨hrc, hiso3⟩ := hD h1N
        have hN1 : N = 1 := by omega
        have hlim1 : (ShouldProfile opts matchFn s r.path r.method
            r.now).2.limiter = 1 := by
          rw [hB, hiso3]
          rfl
        obtain ⟨k1, k2, k3, k4⟩ := ih
          { (ShouldProfile opts matchFn s r.path r.method r.now).2 with
            limiter := releaseLimiter
              (ShouldProfile opts matchFn s r.path r.method r.now).2.limiter }
          c (by simpa using hA.trans hT) (by simp [hlim1, releaseLimiter])
          (by simp only [hrc]; exact hc) hrest
        refine ⟨?_, ?_, ?_, ?_⟩
        · simp only [runRequests, if_pos hiso3, hfc, List.length_cons]
          rw [k1, hN1]
          simp only [Nat.div_one]
          omega
        · simpa only [runRequests, if_pos hiso3] using k2
        · simpa only [runRequests, if_pos hiso3] using k3
        · simp only [runRequests, if_pos hiso3, hfc, List.length_cons]
          rw [k4, if_neg h1N, if_neg h1N]
    · -- rejected for no-match or expiry: no effect at all
      have hsp : ShouldProfile opts matchFn s r.path r.method r.now
          = (none, s) :=
        ShouldProfile_rejected opts matchFn s r (by rw [hT]; exact hrej)
      have hmf : matchedB matchFn T t r = false :=
        rejected_not_matched matchFn T t r hrej
      have hfc : List.filter (fun x => matchedB matchFn T t x) (r :: rs)
          = List.filter (fun x => matchedB matchFn T t x) rs :=
        List.filter_cons_of_neg (by simp [hmf])
      obtain ⟨k1, k2, k3, k4⟩ := ih s c hT hlim hc hrest
      refine ⟨?_, ?_, ?_, ?_⟩
      · simp only [runRequests, hsp, Option.isSome_none, Bool.false_eq_true,
          if_false, hfc, Nat.zero_add]
        exact k1
      · simpa only [runRequests, hsp, Option.isSome_none, Bool.false_eq_true,
          if_false] using k2
      · simpa only [runRequests, hsp, Option.isSome_none, Bool.false_eq_true,
          if_false] using k3
      · simp only [runRequests, hsp, Option.isSome_none, Bool.false_eq_true,
          if_false, hfc]
        exact k4

/-- C1: for a task with `sample_rate = N` and a fresh counter, over any
request sequence in which every request either matches the task (route,
method and expiry) or is rejected for no-match or expiry, the number of
admitted requests is `⌊matched / N⌋` (permits are released between
requests, so permit exhaustion plays no role); the counter ends at
exactly `matched` when `N > 1` — one tick per matched request — and
rejected requests never touch it. -/
theorem C1_sampling (opts : Options) (matchFn : String → String → Bool)
    (s : ManagerState) (t : ProfilingTask) (N : Nat) (reqs : List Request)
    (hN : 1 ≤ N) (hrate : t.sampleRate = (N : Int))
    (henabled : opts.enabled = true) (hmax : 0 < opts.maxConcurrent)
    (hlim : s.limiter = 0) (hc0 : lookupCount s.requestCount t.path = 0)
    (hreqs : ∀ r ∈ reqs, matchedB matchFn s.tasks t r = true
      ∨ rejectedEarly matchFn s.tasks r = true) :
    (runRequests opts matchFn s reqs).2
      = (reqs.filter (fun r => matchedB matchFn s.tasks t r)).length / N
    ∧ lookupCount (runRequests opts matchFn s reqs).1.requestCount t.path
      = (((if 1 < N then
            (reqs.filter (fun r => matchedB matchFn s.tasks t r)).length
          else 0) : Nat) : Int) := by
  obtain ⟨k1, k2, k3, k4⟩ := runRequests_spec opts matchFn s.tasks t N hN hrate
    henabled hmax reqs s 0 rfl hlim (by simpa using hc0) hreqs
  constructor
  · rw [k1]
    simp
  · rw [k4]
    simp

/-- A concrete sampling task: every second matching GET on `/a`. -/
def samplingTask : ProfilingTask :=
  { path := "/a", methods := ["GET"], expiresAt := 1000, duration := 30,
    sampleRate := 2, profileType := "cpu" }

/-- A concrete coordinator state holding only `samplingTask`, with a
fresh counter and an empty limiter. -/
def samplingState : ManagerState :=
  { tasks := [("/a", samplingTask)]
    stats := { totalRequests := 0, profiledCount := 0, failedCount := 0,
               activeProfiles := 0, lastUpdate := 0 }
    requestCount := []
    limiter := 0 }

/-- Six concrete requests: four matching GETs, one POST (method
mismatch) and one GET past the expiry instant. -/
def samplingReqs : List Request :=
  [{ path := "/a", method := "GET", now := 10 },
   { path := "/a", method := "POST", now := 10 },
   { path := "/a", method := "GET", now := 10 },
   { path := "/a", method := "GET", now := 10 },
   { path := "/a", method := "GET", now := 2000 },
   { path := "/a", method := "GET", now := 10 }]

/-- C1 witness: the sampling count at the concrete task, state and
request sequence (four matched requests, rate 2: two admissions,
counter 4). -/
theorem C1_sampling_witness :
    (runRequests optsDefault eqMatch samplingState samplingReqs).2
      = (samplingReqs.filter
          (fun r => matchedB eqMatch samplingState.tasks samplingTask r)).length
        / 2
    ∧ lookupCount
        (runRequests optsDefault eqMatch samplingState samplingReqs).1.requestCount
        samplingTask.path
      = (((if 1 < 2 then
            (samplingReqs.filter
              (fun r => matchedB eqMatch samplingState.tasks samplingTask r)).length
          else 0) : Nat) : Int) :=
  C1_sampling optsDefault eqMatch samplingState samplingTask 2 samplingReqs
    (by decide) (by decide) rfl (by decide) rfl (by decide) (by decide)

end GinPprof
